import Mathlib

/-!
Verification model of the ms-nrbf crate (a codec for the .NET Remoting
Binary Format).  Rust sources embedded here: parse.rs, unparse.rs,
enums.rs, common.rs, records.rs, stream.rs.

Modelling conventions:
* a wire byte is a Nat (always < 256 when produced by the writers);
* a Rust String is modelled as the list of its UTF-8 bytes (RStr);
* i8/i16/i32/i64 values are Int, reinterpreted from the unsigned read
  exactly as the source does; u8..u64 are Nat;
* f32/f64 are carried as their raw IEEE bit patterns (Nat), which is
  all the codec ever looks at (from_bits / to_bits);
* fallible reads are parsers: List Nat to Except ParseError of the
  value and the remaining bytes;
* writers return Option (List Nat): none models a Rust panic
  (the todo!() arms for writing TimeSpan / DateTime);
* Rust panics in the stream layer (unwrap on None, todo!, map index
  out of bounds, unreachable!) are modelled as an explicit Panic value.
-/

namespace MsNrbf

/-- A Rust String, as the list of its UTF-8 bytes. -/
abbrev RStr := List Nat

/-- Reinterpret a w-bit unsigned value as two's-complement signed (the
source reads iN by reading uN and casting). -/
def toSigned (w : Nat) (u : Nat) : Int :=
  if u < 2 ^ (w - 1) then (u : Int) else (u : Int) - ((2 ^ w : Nat) : Int)

/-- Reinterpret a signed value as w-bit unsigned (Rust's as-cast to uN). -/
def toUnsigned (w : Nat) (i : Int) : Nat :=
  (i % ((2 ^ w : Nat) : Int)).toNat

/- ===== enums.rs: the typed enums ===== -/

inductive PrimitiveType
  | Boolean | Byte | Char | Decimal | Double | Int16 | Int32 | Int64
  | SByte | Single | TimeSpan | DateTime | UInt16 | UInt32 | UInt64
  | Null | String
deriving DecidableEq, Repr

/-- Discriminant bytes of PrimitiveType (note there is no value 4). -/
def PrimitiveType.toByte : PrimitiveType → Nat
  | .Boolean => 1 | .Byte => 2 | .Char => 3 | .Decimal => 5 | .Double => 6
  | .Int16 => 7 | .Int32 => 8 | .Int64 => 9 | .SByte => 10 | .Single => 11
  | .TimeSpan => 12 | .DateTime => 13 | .UInt16 => 14 | .UInt32 => 15
  | .UInt64 => 16 | .Null => 17 | .String => 18

/-- try_from_primitive for PrimitiveType. -/
def PrimitiveType.fromByte : Nat → Option PrimitiveType
  | 1 => some .Boolean | 2 => some .Byte | 3 => some .Char | 5 => some .Decimal
  | 6 => some .Double | 7 => some .Int16 | 8 => some .Int32 | 9 => some .Int64
  | 10 => some .SByte | 11 => some .Single | 12 => some .TimeSpan
  | 13 => some .DateTime | 14 => some .UInt16 | 15 => some .UInt32
  | 16 => some .UInt64 | 17 => some .Null | 18 => some .String
  | _ => none

inductive BinaryType
  | Primitive_ | String | Object | SystemClass | Class | ObjectArray
  | StringArray | PrimitiveArray
deriving DecidableEq, Repr

def BinaryType.toByte : BinaryType → Nat
  | .Primitive_ => 0 | .String => 1 | .Object => 2 | .SystemClass => 3
  | .Class => 4 | .ObjectArray => 5 | .StringArray => 6 | .PrimitiveArray => 7

def BinaryType.fromByte : Nat → Option BinaryType
  | 0 => some .Primitive_ | 1 => some .String | 2 => some .Object
  | 3 => some .SystemClass | 4 => some .Class | 5 => some .ObjectArray
  | 6 => some .StringArray | 7 => some .PrimitiveArray
  | _ => none

inductive RecordType
  | SerializedStreamHeader | ClassWithId | SystemClassWithMembers
  | ClassWithMembers | SystemClassWithMembersAndTypes | ClassWithMembersAndTypes
  | BinaryObjectString | BinaryArray | MemberTypedPrimitive | MemberReference
  | ObjectNull | MessageEnd | BinaryLibrary | ObjectNullMultiple256
  | ObjectNullMultiple | ArraySinglePrimitive | ArraySingleObject
  | ArraySingleString | MethodCall | MethodReturn
deriving DecidableEq, Repr

def RecordType.toByte : RecordType → Nat
  | .SerializedStreamHeader => 0 | .ClassWithId => 1
  | .SystemClassWithMembers => 2 | .ClassWithMembers => 3
  | .SystemClassWithMembersAndTypes => 4 | .ClassWithMembersAndTypes => 5
  | .BinaryObjectString => 6 | .BinaryArray => 7 | .MemberTypedPrimitive => 8
  | .MemberReference => 9 | .ObjectNull => 10 | .MessageEnd => 11
  | .BinaryLibrary => 12 | .ObjectNullMultiple256 => 13
  | .ObjectNullMultiple => 14 | .ArraySinglePrimitive => 15
  | .ArraySingleObject => 16 | .ArraySingleString => 17
  | .MethodCall => 21 | .MethodReturn => 22

def RecordType.fromByte : Nat → Option RecordType
  | 0 => some .SerializedStreamHeader | 1 => some .ClassWithId
  | 2 => some .SystemClassWithMembers | 3 => some .ClassWithMembers
  | 4 => some .SystemClassWithMembersAndTypes
  | 5 => some .ClassWithMembersAndTypes
  | 6 => some .BinaryObjectString | 7 => some .BinaryArray
  | 8 => some .MemberTypedPrimitive | 9 => some .MemberReference
  | 10 => some .ObjectNull | 11 => some .MessageEnd | 12 => some .BinaryLibrary
  | 13 => some .ObjectNullMultiple256 | 14 => some .ObjectNullMultiple
  | 15 => some .ArraySinglePrimitive | 16 => some .ArraySingleObject
  | 17 => some .ArraySingleString | 21 => some .MethodCall
  | 22 => some .MethodReturn
  | _ => none

inductive BinaryArrayType
  | Single | Jagged | Rectangular | SingleOffset | JaggedOffset
  | RectangularOffset
deriving DecidableEq, Repr

def BinaryArrayType.toByte : BinaryArrayType → Nat
  | .Single => 0 | .Jagged => 1 | .Rectangular => 2 | .SingleOffset => 3
  | .JaggedOffset => 4 | .RectangularOffset => 5

def BinaryArrayType.fromByte : Nat → Option BinaryArrayType
  | 0 => some .Single | 1 => some .Jagged | 2 => some .Rectangular
  | 3 => some .SingleOffset | 4 => some .JaggedOffset
  | 5 => some .RectangularOffset
  | _ => none

/- ===== parse.rs: the error type and the byte-level readers ===== -/

/-- ParseError from parse.rs.  The outOfFuel variant is an artifact of the
embedding: record parsing recurses and is given a fuel bound; the
top-level entry points pass fuel exceeding any recursion depth reachable
on the given input, so outOfFuel never occurs there.  assertFailed
models the assert_eq panic in StringValueWithCode::parse_from. -/
inductive ParseError
  | ioError
  | stringError
  | invalidPrimitiveType (b : Nat)
  | invalidBinaryType (b : Nat)
  | invalidRecordType (b : Nat)
  | invalidBinaryArrayType (b : Nat)
  | invalidChar
  | invalidTimeSpan
  | invalidDateTime
  | notEnoughInfo (t : RecordType)
  | assertFailed
  | outOfFuel
deriving DecidableEq, Repr

/-- A byte-level reader: consumes bytes from the front of the input and
returns the value with the unconsumed bytes, mirroring the source's
threading of a single io::Read handle. -/
def Parser (α : Type) : Type := List Nat → Except ParseError (α × List Nat)

instance : Monad Parser where
  pure a := fun input => .ok (a, input)
  bind p f := fun input =>
    match p input with
    | .error e => .error e
    | .ok (a, rest) => f a rest

/-- fail with a ParseError. -/
def Parser.fail (e : ParseError) : Parser α := fun _ => .error e

/-- read one byte (u8::parse_from); end of input is an IoError. -/
def parseU8 : Parser Nat := fun input =>
  match input with
  | [] => .error .ioError
  | b :: rest => .ok (b, rest)

/-- read_exact n bytes. -/
def readExact (n : Nat) : Parser (List Nat) := fun input =>
  if input.length < n then .error .ioError
  else .ok (input.take n, input.drop n)

/-- combine little-endian bytes into a Nat. -/
def leValue : List Nat → Nat
  | [] => 0
  | b :: rest => b + 256 * leValue rest

/-- u16::parse_from: read_exact of 2 bytes then from_le_bytes, modelled
byte by byte. -/
def parseU16 : Parser Nat := do
  let a0 ← parseU8
  let a1 ← parseU8
  return a0 + 256 * a1

/-- u32::parse_from: read_exact of 4 bytes then from_le_bytes. -/
def parseU32 : Parser Nat := do
  let a0 ← parseU8
  let a1 ← parseU8
  let a2 ← parseU8
  let a3 ← parseU8
  return a0 + 256 * (a1 + 256 * (a2 + 256 * a3))

/-- u64::parse_from: read_exact of 8 bytes then from_le_bytes. -/
def parseU64 : Parser Nat := do
  let a0 ← parseU8
  let a1 ← parseU8
  let a2 ← parseU8
  let a3 ← parseU8
  let a4 ← parseU8
  let a5 ← parseU8
  let a6 ← parseU8
  let a7 ← parseU8
  return a0 + 256 * (a1 + 256 * (a2 + 256 * (a3 + 256 *
    (a4 + 256 * (a5 + 256 * (a6 + 256 * a7))))))

def parseI8 : Parser Int := do
  let u ← parseU8
  return toSigned 8 u

def parseI16 : Parser Int := do
  let u ← parseU16
  return toSigned 16 u

def parseI32 : Parser Int := do
  let u ← parseU32
  return toSigned 32 u

def parseI64 : Parser Int := do
  let u ← parseU64
  return toSigned 64 u

/-- little-endian bytes of a Nat at a given width in bytes. -/
def leBytes : Nat → Nat → List Nat
  | 0, _ => []
  | n + 1, v => v % 256 :: leBytes n (v / 256)

def unparseU8 (v : Nat) : List Nat := [v % 256]
def unparseU16 (v : Nat) : List Nat := leBytes 2 v
def unparseU32 (v : Nat) : List Nat := leBytes 4 v
def unparseU64 (v : Nat) : List Nat := leBytes 8 v
def unparseI8 (v : Int) : List Nat := unparseU8 (toUnsigned 8 v)
def unparseI16 (v : Int) : List Nat := unparseU16 (toUnsigned 16 v)
def unparseI32 (v : Int) : List Nat := unparseU32 (toUnsigned 32 v)
def unparseI64 (v : Int) : List Nat := unparseU64 (toUnsigned 64 v)

/- ===== the 7-bit length prefixed string codec ===== -/

/-- One term of the reader's varint accumulation.  The source computes
(byte & 0x7F) << (7 * i) at u8 width before widening to usize, so the
result is truncated modulo 256; Rust masks a shift amount that is at
least 8 to the type width in release builds (under debug assertions
that case aborts; it is only reachable from the third length byte on). -/
def varintTerm (b i : Nat) : Nat := ((b % 128) * 2 ^ ((7 * i) % 8)) % 256

/-- The reader's loop: for i in 0..5, read a byte, add its term,
stop when the continuation bit is clear; after 5 iterations the loop
simply ends with the accumulated length (String::parse_from). -/
def readVarintLoop : Nat → Nat → Nat → Parser Nat
  | 0, _, acc => pure acc
  | left + 1, i, acc => do
    let b ← parseU8
    let acc' := acc + varintTerm b i
    if b % 256 / 128 = 0 then pure acc'
    else readVarintLoop left (i + 1) acc'

/-- Rust's std str::from_utf8 validity check (RFC 3629: rejects overlong
forms, surrogates and values above U+10FFFF). -/
def isValidUtf8 : List Nat → Bool
  | [] => true
  | b :: rest =>
    if b < 0x80 then isValidUtf8 rest
    else if b < 0xC2 then false
    else if b < 0xE0 then
      match rest with
      | c1 :: rest' => 0x80 ≤ c1 && c1 < 0xC0 && isValidUtf8 rest'
      | [] => false
    else if b < 0xF0 then
      match rest with
      | c1 :: c2 :: rest' =>
        (if b = 0xE0 then 0xA0 ≤ c1 && c1 < 0xC0
         else if b = 0xED then 0x80 ≤ c1 && c1 < 0xA0
         else 0x80 ≤ c1 && c1 < 0xC0) &&
        (0x80 ≤ c2 && c2 < 0xC0) && isValidUtf8 rest'
      | _ => false
    else if b < 0xF5 then
      match rest with
      | c1 :: c2 :: c3 :: rest' =>
        (if b = 0xF0 then 0x90 ≤ c1 && c1 < 0xC0
         else if b = 0xF4 then 0x80 ≤ c1 && c1 < 0x90
         else 0x80 ≤ c1 && c1 < 0xC0) &&
        (0x80 ≤ c2 && c2 < 0xC0) && (0x80 ≤ c3 && c3 < 0xC0) &&
        isValidUtf8 rest'
      | _ => false
    else false

/-- String::parse_from: varint length then exactly length bytes,
validated as UTF-8. -/
def parseString : Parser RStr := do
  let length ← readVarintLoop 5 0 0
  let bytes ← readExact length
  if isValidUtf8 bytes then pure bytes else Parser.fail .stringError

/-- The writer's varint loop from str::unparse_to: emit 7 bits per byte,
set the continuation bit while the remaining length is nonzero, at most
5 bytes. -/
def writeVarintLoop : Nat → Nat → List Nat
  | 0, _ => []
  | left + 1, len =>
    let b := len % 128
    let len' := len / 128
    if len' = 0 then [b] else (b + 128) :: writeVarintLoop left len'

/-- str::unparse_to: the varint prefix of the byte length followed by
the UTF-8 bytes. -/
def unparseStr (s : RStr) : List Nat := writeVarintLoop 5 s.length ++ s

/- ===== char: parse (the source's quirky accumulation) and write ===== -/

/-- continuation step of char::parse_from: byte <<= 8; byte |= next. -/
def parseCharLoop : Nat → Nat → Parser Nat
  | 0, acc => pure acc
  | n + 1, acc => do
    let b ← parseU8
    parseCharLoop n (acc * 256 + b)

/-- char::parse_from: the leading byte decides 1..4 bytes; continuation
bytes are shifted in whole, then the u32 is validated as a Unicode
scalar value. -/
def parseChar : Parser Nat := do
  let b0 ← parseU8
  let iterations :=
    if b0 / 128 % 2 = 0 then 0
    else if b0 / 32 % 8 = 6 then 1
    else if b0 / 16 % 16 = 14 then 2
    else 3
  let v ← parseCharLoop iterations b0
  if v < 0xD800 ∨ (0xE000 ≤ v ∧ v < 0x110000) then pure v
  else Parser.fail .invalidChar

/-- char::unparse_to writes the scalar value in standard UTF-8
(encode_utf8). -/
def utf8Encode (c : Nat) : List Nat :=
  if c < 0x80 then [c]
  else if c < 0x800 then [0xC0 + c / 64, 0x80 + c % 64]
  else if c < 0x10000 then
    [0xE0 + c / 4096, 0x80 + c / 64 % 64, 0x80 + c % 64]
  else
    [0xF0 + c / 262144, 0x80 + c / 4096 % 64, 0x80 + c / 64 % 64,
     0x80 + c % 64]

/- ===== chrono-backed time primitives ===== -/

/-- chrono NaiveTime as the components the parser hands to
from_hms_nano_opt. -/
structure NaiveTime where
  hour : Nat
  min : Nat
  sec : Nat
  nano : Nat
deriving DecidableEq, Repr

/-- chrono's NaiveTime::from_hms_nano_opt, modelled from its documented
contract: succeeds iff hour < 24, min < 60, sec < 60 and
nano < 2,000,000,000 (the extra second's worth covers leap seconds). -/
def fromHmsNanoOpt (h m s n : Nat) : Option NaiveTime :=
  if h < 24 ∧ m < 60 ∧ s < 60 ∧ n < 2000000000 then some ⟨h, m, s, n⟩
  else none

/-- NaiveTime::parse_from: i64 tick count, absolute value taken, then the
source's breakdown (min and sec stay total counts, nano and sec pass
through an as-u32 truncation); fails InvalidTimeSpan when
from_hms_nano_opt rejects. -/
def parseTimeSpan : Parser NaiveTime := do
  let ticks ← parseI64
  let hns := ticks.natAbs
  let nano := hns * 100 % 2 ^ 32
  let sec := hns / 1000000000 % 2 ^ 32
  let min := sec / 60
  let hour := min / 60
  match fromHmsNanoOpt hour min sec nano with
  | some t => pure t
  | none => Parser.fail .invalidTimeSpan

/-- chrono NaiveDateTime as a microsecond timestamp. -/
structure NaiveDateTime where
  micros : Int
deriving DecidableEq, Repr

/-- chrono's documented representable range for
NaiveDateTime::from_timestamp_micros (roughly 262,000 years either
side of the epoch). -/
def chronoMicrosBound : Int := 8334632851200000000

/-- NaiveDateTime::parse_from: u64 with the low two DateTimeKind bits
masked off, reinterpreted as i64, divided by 10 (Rust i64 division
truncates toward zero); fails InvalidDateTime when chrono rejects. -/
def parseDateTime : Parser NaiveDateTime := do
  let u ← parseU64
  let masked := toSigned 64 (u / 4 * 4)
  let micros := Int.tdiv masked 10
  if micros.natAbs ≤ chronoMicrosBound.natAbs then pure ⟨micros⟩
  else Parser.fail .invalidDateTime

/- ===== enums.rs: Primitive values and their codec ===== -/

/-- The user-facing Primitive union.  Double and Single carry the raw
IEEE bit pattern, which is all the codec reads or writes. -/
inductive Primitive
  | Boolean (b : Bool)
  | Byte (v : Nat)
  | Char (c : Nat)
  | Decimal (s : RStr)
  | Double (bits : Nat)
  | Int16 (v : Int)
  | Int32 (v : Int)
  | Int64 (v : Int)
  | SByte (v : Int)
  | Single (bits : Nat)
  | TimeSpan (t : NaiveTime)
  | DateTime (d : NaiveDateTime)
  | UInt16 (v : Nat)
  | UInt32 (v : Nat)
  | UInt64 (v : Nat)
  | Null
  | String (s : RStr)
deriving DecidableEq, Repr

def Primitive.get_type : Primitive → PrimitiveType
  | .Boolean _ => .Boolean | .Byte _ => .Byte | .Char _ => .Char
  | .Decimal _ => .Decimal | .Double _ => .Double | .Int16 _ => .Int16
  | .Int32 _ => .Int32 | .Int64 _ => .Int64 | .SByte _ => .SByte
  | .Single _ => .Single | .TimeSpan _ => .TimeSpan | .DateTime _ => .DateTime
  | .UInt16 _ => .UInt16 | .UInt32 _ => .UInt32 | .UInt64 _ => .UInt64
  | .Null => .Null | .String _ => .String

/-- Primitive::parse_from_typed.  A Boolean is any u8 compared with > 0. -/
def parsePrimitive : PrimitiveType → Parser Primitive
  | .Boolean => do
    let b ← parseU8
    return .Boolean (decide (0 < b))
  | .Byte => do
    let v ← parseU8
    return .Byte v
  | .Char => do
    let c ← parseChar
    return .Char c
  | .Decimal => do
    let s ← parseString
    return .Decimal s
  | .Double => do
    let u ← parseU64
    return .Double u
  | .Int16 => do
    let v ← parseI16
    return .Int16 v
  | .Int32 => do
    let v ← parseI32
    return .Int32 v
  | .Int64 => do
    let v ← parseI64
    return .Int64 v
  | .SByte => do
    let v ← parseI8
    return .SByte v
  | .Single => do
    let u ← parseU32
    return .Single u
  | .TimeSpan => do
    let t ← parseTimeSpan
    return .TimeSpan t
  | .DateTime => do
    let d ← parseDateTime
    return .DateTime d
  | .UInt16 => do
    let v ← parseU16
    return .UInt16 v
  | .UInt32 => do
    let v ← parseU32
    return .UInt32 v
  | .UInt64 => do
    let v ← parseU64
    return .UInt64 v
  | .Null => pure .Null
  | .String => do
    let s ← parseString
    return .String s

/-- Primitive::unparse_to.  Writing a TimeSpan or DateTime is todo!()
in the source, hence none (a panic). -/
def unparsePrimitive : Primitive → Option (List Nat)
  | .Boolean b => some [if b then 1 else 0]
  | .Byte v => some (unparseU8 v)
  | .Char c => some (utf8Encode c)
  | .Decimal s => some (unparseStr s)
  | .Double bits => some (unparseU64 bits)
  | .Int16 v => some (unparseI16 v)
  | .Int32 v => some (unparseI32 v)
  | .Int64 v => some (unparseI64 v)
  | .SByte v => some (unparseI8 v)
  | .Single bits => some (unparseU32 bits)
  | .TimeSpan _ => none
  | .DateTime _ => none
  | .UInt16 v => some (unparseU16 v)
  | .UInt32 v => some (unparseU32 v)
  | .UInt64 v => some (unparseU64 v)
  | .Null => some []
  | .String s => some (unparseStr s)

/- ===== common.rs: composite structs ===== -/

structure SerializationHeader where
  root_id : Int
  header_id : Int
  major_version : Int
  minor_version : Int
deriving DecidableEq, Repr

structure BinaryLibrary where
  library_id : Int
  library_name : RStr
deriving DecidableEq, Repr

structure ClassInfo where
  object_id : Int
  name : RStr
  member_count : Int
  member_names : List RStr
deriving DecidableEq, Repr

structure ClassTypeInfo where
  type_name : RStr
  library_id : Int
deriving DecidableEq, Repr

inductive AdditionalInfo
  | Primitive (t : PrimitiveType)
  | SystemClass (s : RStr)
  | Class (c : ClassTypeInfo)
  | PrimitiveArray (t : PrimitiveType)
deriving DecidableEq, Repr

structure MemberTypeInfo where
  member_types : List BinaryType
  additional_info : List AdditionalInfo
deriving DecidableEq, Repr

structure ArrayInfo where
  object_id : Int
  length : Int
deriving DecidableEq, Repr

structure ClassWithId where
  object_id : Int
  metadata_id : Int
deriving DecidableEq, Repr

structure BinaryObjectString where
  object_id : Int
  value : RStr
deriving DecidableEq, Repr

structure ValueWithCode where
  value : Primitive
deriving DecidableEq, Repr

structure StringValueWithCode where
  value : RStr
deriving DecidableEq, Repr

structure ArrayOfValueWithCode where
  values : List ValueWithCode
deriving DecidableEq, Repr

structure MessageFlags where
  no_args : Bool
  args_inline : Bool
  args_is_array : Bool
  args_in_array : Bool
  no_context : Bool
  context_inline : Bool
  context_in_array : Bool
  method_signature_in_array : Bool
  properties_in_array : Bool
  no_return_value : Bool
  return_value_void : Bool
  return_value_inline : Bool
  return_value_in_array : Bool
  exception_in_array : Bool
  generic_method : Bool
deriving DecidableEq, Repr

structure BinaryMethodCall where
  message_flags : MessageFlags
  method_name : StringValueWithCode
  type_name : StringValueWithCode
  call_context : Option StringValueWithCode
  args : Option ArrayOfValueWithCode
deriving DecidableEq, Repr

structure BinaryMethodReturn where
  message_flags : MessageFlags
  return_value : Option ValueWithCode
  call_context : Option StringValueWithCode
  args : Option ArrayOfValueWithCode
deriving DecidableEq, Repr

structure ClassWithMembers where
  class_info : ClassInfo
  library_id : Int
  data : List (List Nat)
deriving DecidableEq, Repr

structure SystemClassWithMembers where
  class_info : ClassInfo
  data : List (List Nat)
deriving DecidableEq, Repr

structure ArraySingleObject where
  array_info : ArrayInfo
  members : List (List Nat)
deriving DecidableEq, Repr

structure ArraySingleString where
  array_info : ArrayInfo
  members : List RStr
deriving DecidableEq, Repr

/- ===== typed-enum byte parsers ===== -/

def parsePrimitiveType : Parser PrimitiveType := do
  let b ← parseU8
  match PrimitiveType.fromByte b with
  | some t => pure t
  | none => Parser.fail (.invalidPrimitiveType b)

def parseBinaryType : Parser BinaryType := do
  let b ← parseU8
  match BinaryType.fromByte b with
  | some t => pure t
  | none => Parser.fail (.invalidBinaryType b)

def parseRecordType : Parser RecordType := do
  let b ← parseU8
  match RecordType.fromByte b with
  | some t => pure t
  | none => Parser.fail (.invalidRecordType b)

def parseBinaryArrayType : Parser BinaryArrayType := do
  let b ← parseU8
  match BinaryArrayType.fromByte b with
  | some t => pure t
  | none => Parser.fail (.invalidBinaryArrayType b)

/-- Vec::parse_from_sized: size sequential reads. -/
def parseListN (p : Parser α) : Nat → Parser (List α)
  | 0 => pure []
  | n + 1 => do
    let x ← p
    let xs ← parseListN p n
    return x :: xs

/-- ClassInfo::parse_from (the member_names loop runs 0..member_count,
empty for a non-positive count). -/
def parseClassInfo : Parser ClassInfo := do
  let object_id ← parseI32
  let name ← parseString
  let member_count ← parseI32
  let member_names ← parseListN parseString member_count.toNat
  return ⟨object_id, name, member_count, member_names⟩

def unparseClassInfo (ci : ClassInfo) : List Nat :=
  unparseI32 ci.object_id ++ unparseStr ci.name ++
    unparseI32 ci.member_count ++ ci.member_names.flatMap unparseStr

/-- Option of AdditionalInfo::parse_from_typed: only Primitive_,
PrimitiveArray, SystemClass and Class carry additional info. -/
def parseAdditionalInfoOpt : BinaryType → Parser (Option AdditionalInfo)
  | .Primitive_ => do
    let t ← parsePrimitiveType
    return some (.Primitive t)
  | .PrimitiveArray => do
    let t ← parsePrimitiveType
    return some (.PrimitiveArray t)
  | .SystemClass => do
    let s ← parseString
    return some (.SystemClass s)
  | .Class => do
    let type_name ← parseString
    let library_id ← parseI32
    return some (.Class ⟨type_name, library_id⟩)
  | _ => pure none

/-- the additional_info collection loop of
MemberTypeInfo::parse_from_sized: skip the none entries. -/
def parseAddInfos : List BinaryType → Parser (List AdditionalInfo)
  | [] => pure []
  | t :: rest => do
    let info ← parseAdditionalInfoOpt t
    let tail ← parseAddInfos rest
    match info with
    | some i => pure (i :: tail)
    | none => pure tail

/-- MemberTypeInfo::parse_from_sized. -/
def parseMemberTypeInfo (member_count : Nat) : Parser MemberTypeInfo := do
  let member_types ← parseListN parseBinaryType member_count
  let additional_info ← parseAddInfos member_types
  return ⟨member_types, additional_info⟩

def unparseAdditionalInfo : AdditionalInfo → List Nat
  | .Primitive t => [t.toByte]
  | .PrimitiveArray t => [t.toByte]
  | .Class c => unparseStr c.type_name ++ unparseI32 c.library_id
  | .SystemClass s => unparseStr s

def unparseMemberTypeInfo (mti : MemberTypeInfo) : List Nat :=
  mti.member_types.flatMap (fun t => [t.toByte]) ++
    mti.additional_info.flatMap unparseAdditionalInfo

def parseArrayInfo : Parser ArrayInfo := do
  let object_id ← parseI32
  let length ← parseI32
  return ⟨object_id, length⟩

def unparseArrayInfo (ai : ArrayInfo) : List Nat :=
  unparseI32 ai.object_id ++ unparseI32 ai.length

def parseValueWithCode : Parser ValueWithCode := do
  let t ← parsePrimitiveType
  let v ← parsePrimitive t
  return ⟨v⟩

def unparseValueWithCode (v : ValueWithCode) : Option (List Nat) := do
  let body ← unparsePrimitive v.value
  return [v.value.get_type.toByte] ++ body

/-- StringValueWithCode::parse_from asserts that the leading byte equals
BinaryType::String as u8 (== 1); a mismatch is a Rust assert_eq panic,
modelled by the dedicated assertFailed error. -/
def parseStringValueWithCode : Parser StringValueWithCode := do
  let b ← parseU8
  if b = BinaryType.String.toByte then do
    let s ← parseString
    return ⟨s⟩
  else Parser.fail .assertFailed

def unparseStringValueWithCode (v : StringValueWithCode) : List Nat :=
  [BinaryType.String.toByte] ++ unparseStr v.value

def parseArrayOfValueWithCode : Parser ArrayOfValueWithCode := do
  let length ← parseI32
  let values ← parseListN parseValueWithCode (toUnsigned 64 length)
  return ⟨values⟩

def unparseValueWithCodeList : List ValueWithCode → Option (List Nat)
  | [] => some []
  | v :: rest => do
    let b ← unparseValueWithCode v
    let bs ← unparseValueWithCodeList rest
    return b ++ bs

def unparseArrayOfValueWithCode (a : ArrayOfValueWithCode) :
    Option (List Nat) := do
  let body ← unparseValueWithCodeList a.values
  return unparseI32 (Int.ofNat a.values.length) ++ body

/-- MessageFlags::parse_from: one u32 read, each flag set by masking. -/
def parseMessageFlags : Parser MessageFlags := do
  let int ← parseU32
  return {
    no_args := int &&& 0x0001 ≠ 0
    args_inline := int &&& 0x0002 ≠ 0
    args_is_array := int &&& 0x0004 ≠ 0
    args_in_array := int &&& 0x0008 ≠ 0
    no_context := int &&& 0x0010 ≠ 0
    context_inline := int &&& 0x0020 ≠ 0
    context_in_array := int &&& 0x0040 ≠ 0
    method_signature_in_array := int &&& 0x0080 ≠ 0
    properties_in_array := int &&& 0x0100 ≠ 0
    no_return_value := int &&& 0x0200 ≠ 0
    return_value_void := int &&& 0x0400 ≠ 0
    return_value_inline := int &&& 0x0800 ≠ 0
    return_value_in_array := int &&& 0x1000 ≠ 0
    exception_in_array := int &&& 0x2000 ≠ 0
    generic_method := int &&& 0x8000 ≠ 0 }

/-- MessageFlags::unparse_to: build the u32 by or-ing the named bits. -/
def unparseMessageFlags (f : MessageFlags) : List Nat :=
  let int : Nat :=
    (if f.no_args then 0x0001 else 0) |||
    (if f.args_inline then 0x0002 else 0) |||
    (if f.args_is_array then 0x0004 else 0) |||
    (if f.args_in_array then 0x0008 else 0) |||
    (if f.no_context then 0x0010 else 0) |||
    (if f.context_inline then 0x0020 else 0) |||
    (if f.context_in_array then 0x0040 else 0) |||
    (if f.method_signature_in_array then 0x0080 else 0) |||
    (if f.properties_in_array then 0x0100 else 0) |||
    (if f.no_return_value then 0x0200 else 0) |||
    (if f.return_value_void then 0x0400 else 0) |||
    (if f.return_value_inline then 0x0800 else 0) |||
    (if f.return_value_in_array then 0x1000 else 0) |||
    (if f.exception_in_array then 0x2000 else 0) |||
    (if f.generic_method then 0x8000 else 0)
  unparseU32 int

/-- the additional_info loop of BinaryArray::parse_from: rank repeats of
the same element BinaryType, dropping none entries. -/
def parseAddInfosRepeat : Nat → BinaryType → Parser (List AdditionalInfo)
  | 0, _ => pure []
  | n + 1, t => do
    let info ← parseAdditionalInfoOpt t
    let tail ← parseAddInfosRepeat n t
    match info with
    | some i => pure (i :: tail)
    | none => pure tail

/- ===== records.rs / enums.rs: the Record type and its codec ===== -/

/-- The record enumeration (enums.rs), with the class and array records
that contain nested member records carrying their fields inline. -/
inductive Record
  | SerializationHeader (h : SerializationHeader)
  | ClassWithId (c : ClassWithId)
  | SystemClassWithMembers (c : SystemClassWithMembers)
  | ClassWithMembers (c : ClassWithMembers)
  | SystemClassWithMembersAndTypes (class_info : ClassInfo)
      (member_type_info : MemberTypeInfo) (member_references : List Record)
  | ClassWithMembersAndTypes (class_info : ClassInfo)
      (member_type_info : MemberTypeInfo) (library_id : Int)
      (member_references : List Record)
  | BinaryObjectString (b : BinaryObjectString)
  | BinaryArray (object_id : Int) (binary_array_type : BinaryArrayType)
      (rank : Int) (lengths : List Int) (lower_bounds : Option (List Int))
      (binary_type : BinaryType) (additional_info : List AdditionalInfo)
      (members : List Record)
  | MemberPrimitiveUnTyped (p : Primitive)
  | MemberTypedPrimitive (value : Primitive)
  | MemberReference (id : Int)
  | ObjectNull
  | MessageEnd
  | ObjectNullMultiple256 (null_count : Nat)
  | ObjectNullMultiple (null_count : Int)
  | BinaryLibrary (l : BinaryLibrary)
  | ArraySinglePrimitive (array_info : ArrayInfo)
      (primitive_type : PrimitiveType) (members : List Primitive)
  | ArraySingleObject (a : ArraySingleObject)
  | ArraySingleString (a : ArraySingleString)
  | MethodCall (m : BinaryMethodCall)
  | MethodReturn (m : BinaryMethodReturn)
deriving Repr

mutual

/-- Record::parse_from_typed (enums.rs): dispatch on the record tag.
SystemClassWithMembers, ClassWithMembers and ArraySingleObject have no
untyped parser, so their tags fall to NotEnoughInfo, as in the source.
The fuel argument is an embedding artifact bounding nesting depth. -/
def parseRecordTyped : Nat → RecordType → Parser Record
  | 0, _ => Parser.fail .outOfFuel
  | fuel + 1, rt =>
    match rt with
    | .SerializedStreamHeader => do
      let root_id ← parseI32
      let header_id ← parseI32
      let major_version ← parseI32
      let minor_version ← parseI32
      return .SerializationHeader ⟨root_id, header_id, major_version,
        minor_version⟩
    | .ClassWithId => do
      let object_id ← parseI32
      let metadata_id ← parseI32
      return .ClassWithId ⟨object_id, metadata_id⟩
    | .SystemClassWithMembersAndTypes => do
      let class_info ← parseClassInfo
      let mti ← parseMemberTypeInfo (toUnsigned 64 class_info.member_count)
      let refs ← readReferences fuel mti.additional_info
      return .SystemClassWithMembersAndTypes class_info mti refs
    | .ClassWithMembersAndTypes => do
      let class_info ← parseClassInfo
      let mti ← parseMemberTypeInfo (toUnsigned 64 class_info.member_count)
      let library_id ← parseI32
      let refs ← readReferences fuel mti.additional_info
      return .ClassWithMembersAndTypes class_info mti library_id refs
    | .BinaryObjectString => do
      let object_id ← parseI32
      let value ← parseString
      return .BinaryObjectString ⟨object_id, value⟩
    | .BinaryArray => do
      let object_id ← parseI32
      let binary_array_type ← parseBinaryArrayType
      let rank ← parseI32
      let lengths ← parseListN parseI32 (toUnsigned 64 rank)
      let lower_bounds ←
        match binary_array_type with
        | .SingleOffset | .JaggedOffset | .RectangularOffset => do
          let lb ← parseListN parseI32 (toUnsigned 64 rank)
          pure (some lb)
        | _ => pure none
      let binary_type ← parseBinaryType
      let additional_info ← parseAddInfosRepeat rank.toNat binary_type
      let members ← readReferences fuel additional_info
      return .BinaryArray object_id binary_array_type rank lengths
        lower_bounds binary_type additional_info members
    | .MemberTypedPrimitive => do
      let t ← parsePrimitiveType
      let v ← parsePrimitive t
      return .MemberTypedPrimitive v
    | .MemberReference => do
      let id ← parseI32
      return .MemberReference id
    | .ObjectNull => pure .ObjectNull
    | .MessageEnd => pure .MessageEnd
    | .ObjectNullMultiple256 => do
      let null_count ← parseU8
      return .ObjectNullMultiple256 null_count
    | .ObjectNullMultiple => do
      let null_count ← parseI32
      return .ObjectNullMultiple null_count
    | .BinaryLibrary => do
      let library_id ← parseI32
      let library_name ← parseString
      return .BinaryLibrary ⟨library_id, library_name⟩
    | .ArraySinglePrimitive => do
      let array_info ← parseArrayInfo
      let primitive_type ← parsePrimitiveType
      let members ← parseListN (parsePrimitive primitive_type)
        array_info.length.toNat
      return .ArraySinglePrimitive array_info primitive_type members
    | .ArraySingleString => do
      let array_info ← parseArrayInfo
      let members ← parseListN parseString (toUnsigned 64 array_info.length)
      return .ArraySingleString ⟨array_info, members⟩
    | .MethodCall => do
      let message_flags ← parseMessageFlags
      let method_name ← parseStringValueWithCode
      let type_name ← parseStringValueWithCode
      let call_context ←
        if message_flags.context_inline then do
          let c ← parseStringValueWithCode
          pure (some c)
        else pure none
      let args ←
        if message_flags.args_inline then do
          let a ← parseArrayOfValueWithCode
          pure (some a)
        else pure none
      return .MethodCall ⟨message_flags, method_name, type_name,
        call_context, args⟩
    | .MethodReturn => do
      let message_flags ← parseMessageFlags
      let return_value ←
        if message_flags.return_value_inline then do
          let v ← parseValueWithCode
          pure (some v)
        else pure none
      let call_context ←
        if message_flags.context_inline then do
          let c ← parseStringValueWithCode
          pure (some c)
        else pure none
      let args ←
        if message_flags.args_inline then do
          let a ← parseArrayOfValueWithCode
          pure (some a)
        else pure none
      return .MethodReturn ⟨message_flags, return_value, call_context, args⟩
    | other => Parser.fail (.notEnoughInfo other)
termination_by structural fuel _ => fuel

/-- read_references (records.rs): one member value per additional_info
entry, in order.  A Primitive entry reads an unframed primitive of the
declared type; any other entry reads a fresh record tag and parses the
record recursively.  Member slots whose BinaryType contributes no
additional_info entry are never visited.  (The fuel, an embedding
artifact, also ticks once per entry so that the recursion is structural
on it.) -/
def readReferences : Nat → List AdditionalInfo → Parser (List Record)
  | _, [] => pure []
  | 0, _ :: _ => Parser.fail .outOfFuel
  | fuel + 1, info :: rest => do
    let r ←
      match info with
      | .Primitive t => do
        let v ← parsePrimitive t
        pure (Record.MemberPrimitiveUnTyped v)
      | _ => do
        let rt ← parseRecordType
        parseRecordTyped fuel rt
    let rs ← readReferences fuel rest
    return r :: rs
termination_by structural fuel _ => fuel

end

/-- the Vec of Record reader (enums.rs): read tag, parse, stop after
MessageEnd. -/
def parseRecordsLoop : Nat → Parser (List Record)
  | 0 => Parser.fail .outOfFuel
  | fuel + 1 => do
    let rt ← parseRecordType
    let record ← parseRecordTyped (fuel + 1) rt
    match record with
    | .MessageEnd => pure [.MessageEnd]
    | r => do
      let rest ← parseRecordsLoop fuel
      return r :: rest

/-- Vec of Record::parse_from, with fuel ample for the input. -/
def parseRecords : Parser (List Record) := fun input =>
  parseRecordsLoop (input.length + 1) input

/- ===== record unparse (records.rs / enums.rs UnparseTo impls) ===== -/

/-- Vec of u8 unparse: the raw bytes. -/
def unparseByteVec (bs : List Nat) : List Nat := bs.map (· % 256)

/-- Vec of Vec of u8 unparse. -/
def unparseByteVecs (d : List (List Nat)) : List Nat :=
  d.flatMap unparseByteVec

mutual

/-- Record::unparse_to.  none models a panic while writing (reachable
only through the todo!() arms for TimeSpan / DateTime primitives). -/
def unparseRecord : Record → Option (List Nat)
  | .SerializationHeader h =>
    some ([RecordType.SerializedStreamHeader.toByte] ++
      unparseI32 h.root_id ++ unparseI32 h.header_id ++
      unparseI32 h.major_version ++ unparseI32 h.minor_version)
  | .ClassWithId c =>
    some ([RecordType.ClassWithId.toByte] ++
      unparseI32 c.object_id ++ unparseI32 c.metadata_id)
  | .SystemClassWithMembers c =>
    some ([RecordType.SystemClassWithMembers.toByte] ++
      unparseClassInfo c.class_info ++ unparseByteVecs c.data)
  | .ClassWithMembers c =>
    some ([RecordType.ClassWithMembers.toByte] ++
      unparseClassInfo c.class_info ++ unparseI32 c.library_id ++
      unparseByteVecs c.data)
  | .SystemClassWithMembersAndTypes class_info mti refs => do
    let body ← unparseRecordList refs
    return [RecordType.SystemClassWithMembersAndTypes.toByte] ++
      unparseClassInfo class_info ++ unparseMemberTypeInfo mti ++ body
  | .ClassWithMembersAndTypes class_info mti library_id refs => do
    let body ← unparseRecordList refs
    return [RecordType.ClassWithMembersAndTypes.toByte] ++
      unparseClassInfo class_info ++ unparseMemberTypeInfo mti ++
      unparseI32 library_id ++ body
  | .BinaryObjectString b =>
    some ([RecordType.BinaryObjectString.toByte] ++
      unparseI32 b.object_id ++ unparseStr b.value)
  | .BinaryArray object_id binary_array_type rank lengths lower_bounds
      binary_type additional_info members => do
    let body ← unparseRecordList members
    return [RecordType.BinaryArray.toByte] ++ unparseI32 object_id ++
      [binary_array_type.toByte] ++ unparseI32 rank ++
      lengths.flatMap unparseI32 ++
      (match lower_bounds with
       | some lb => lb.flatMap unparseI32
       | none => []) ++
      [binary_type.toByte] ++
      additional_info.flatMap unparseAdditionalInfo ++ body
  | .MemberPrimitiveUnTyped p => unparsePrimitive p
  | .MemberTypedPrimitive v => do
    let body ← unparsePrimitive v
    return [RecordType.MemberTypedPrimitive.toByte] ++
      [v.get_type.toByte] ++ body
  | .MemberReference id =>
    some ([RecordType.MemberReference.toByte] ++ unparseI32 id)
  | .ObjectNull => some [RecordType.ObjectNull.toByte]
  | .MessageEnd => some [RecordType.MessageEnd.toByte]
  | .ObjectNullMultiple256 null_count =>
    some ([RecordType.ObjectNullMultiple256.toByte] ++
      unparseU8 null_count)
  | .ObjectNullMultiple null_count =>
    some ([RecordType.ObjectNullMultiple.toByte] ++ unparseI32 null_count)
  | .BinaryLibrary l =>
    some ([RecordType.BinaryLibrary.toByte] ++
      unparseI32 l.library_id ++ unparseStr l.library_name)
  | .ArraySinglePrimitive array_info primitive_type members => do
    let body ← unparsePrimList members
    return [RecordType.ArraySinglePrimitive.toByte] ++
      unparseArrayInfo array_info ++ [primitive_type.toByte] ++ body
  | .ArraySingleObject a =>
    some ([RecordType.ArraySingleObject.toByte] ++
      unparseArrayInfo a.array_info ++ unparseByteVecs a.members)
  | .ArraySingleString a =>
    some ([RecordType.ArraySingleString.toByte] ++
      unparseArrayInfo a.array_info ++ a.members.flatMap unparseStr)
  | .MethodCall m => do
    let args ←
      match m.args with
      | some a => unparseArrayOfValueWithCode a
      | none => some []
    return [RecordType.MethodCall.toByte] ++
      unparseMessageFlags m.message_flags ++
      unparseStringValueWithCode m.method_name ++
      unparseStringValueWithCode m.type_name ++
      (match m.call_context with
       | some c => unparseStringValueWithCode c
       | none => []) ++ args
  | .MethodReturn m => do
    let rv ←
      match m.return_value with
      | some v => unparseValueWithCode v
      | none => some []
    let args ←
      match m.args with
      | some a => unparseArrayOfValueWithCode a
      | none => some []
    return [RecordType.MethodReturn.toByte] ++
      unparseMessageFlags m.message_flags ++ rv ++
      (match m.call_context with
       | some c => unparseStringValueWithCode c
       | none => []) ++ args

/-- Vec of Record unparse: each record in order. -/
def unparseRecordList : List Record → Option (List Nat)
  | [] => some []
  | r :: rest => do
    let b ← unparseRecord r
    let bs ← unparseRecordList rest
    return b ++ bs

/-- Vec of Primitive unparse. -/
def unparsePrimList : List Primitive → Option (List Nat)
  | [] => some []
  | p :: rest => do
    let b ← unparsePrimitive p
    let bs ← unparsePrimList rest
    return b ++ bs

end

/- ===== stream.rs: the user-facing model ===== -/

/-- A homogeneous primitive array (stream.rs PrimitiveArray).  Element
payloads follow the Primitive conventions (floats as bit patterns). -/
inductive PrimitiveArray
  | Boolean (v : List Bool)
  | Byte (v : List Nat)
  | Char (v : List Nat)
  | Decimal (v : List RStr)
  | Double (v : List Nat)
  | Int16 (v : List Int)
  | Int32 (v : List Int)
  | Int64 (v : List Int)
  | SByte (v : List Int)
  | Single (v : List Nat)
  | TimeSpan (v : List NaiveTime)
  | DateTime (v : List NaiveDateTime)
  | UInt16 (v : List Nat)
  | UInt32 (v : List Nat)
  | UInt64 (v : List Nat)
  | Null
  | String (v : List RStr)
deriving DecidableEq, Repr

def PrimitiveArray.get_type : PrimitiveArray → PrimitiveType
  | .Boolean _ => .Boolean | .Byte _ => .Byte | .Char _ => .Char
  | .Decimal _ => .Decimal | .Double _ => .Double | .Int16 _ => .Int16
  | .Int32 _ => .Int32 | .Int64 _ => .Int64 | .SByte _ => .SByte
  | .Single _ => .Single | .TimeSpan _ => .TimeSpan | .DateTime _ => .DateTime
  | .UInt16 _ => .UInt16 | .UInt32 _ => .UInt32 | .UInt64 _ => .UInt64
  | .Null => .Null | .String _ => .String

/-- PrimitiveArray::into_field: project a homogeneous Vec of Primitive
into the matching variant; a mismatched element is the source's
unreachable! panic, modelled as none. -/
def PrimitiveArray.into_field (array : List Primitive)
    (primitive_type : PrimitiveType) : Option PrimitiveArray :=
  match primitive_type with
  | .Boolean => do
    let v ← array.mapM fun p =>
      match p with | .Boolean x => some x | _ => none
    return .Boolean v
  | .Byte => do
    let v ← array.mapM fun p =>
      match p with | .Byte x => some x | _ => none
    return .Byte v
  | .Char => do
    let v ← array.mapM fun p =>
      match p with | .Char x => some x | _ => none
    return .Char v
  | .Decimal => do
    let v ← array.mapM fun p =>
      match p with | .Decimal x => some x | _ => none
    return .Decimal v
  | .Double => do
    let v ← array.mapM fun p =>
      match p with | .Double x => some x | _ => none
    return .Double v
  | .Int16 => do
    let v ← array.mapM fun p =>
      match p with | .Int16 x => some x | _ => none
    return .Int16 v
  | .Int32 => do
    let v ← array.mapM fun p =>
      match p with | .Int32 x => some x | _ => none
    return .Int32 v
  | .Int64 => do
    let v ← array.mapM fun p =>
      match p with | .Int64 x => some x | _ => none
    return .Int64 v
  | .SByte => do
    let v ← array.mapM fun p =>
      match p with | .SByte x => some x | _ => none
    return .SByte v
  | .Single => do
    let v ← array.mapM fun p =>
      match p with | .Single x => some x | _ => none
    return .Single v
  | .TimeSpan => do
    let v ← array.mapM fun p =>
      match p with | .TimeSpan x => some x | _ => none
    return .TimeSpan v
  | .DateTime => do
    let v ← array.mapM fun p =>
      match p with | .DateTime x => some x | _ => none
    return .DateTime v
  | .UInt16 => do
    let v ← array.mapM fun p =>
      match p with | .UInt16 x => some x | _ => none
    return .UInt16 v
  | .UInt32 => do
    let v ← array.mapM fun p =>
      match p with | .UInt32 x => some x | _ => none
    return .UInt32 v
  | .UInt64 => do
    let v ← array.mapM fun p =>
      match p with | .UInt64 x => some x | _ => none
    return .UInt64 v
  | .Null => some .Null
  | .String => do
    let v ← array.mapM fun p =>
      match p with | .String x => some x | _ => none
    return .String v

/-- From PrimitiveArray for Vec of Primitive (stream.rs from_field). -/
def PrimitiveArray.toVec : PrimitiveArray → List Primitive
  | .Boolean v => v.map .Boolean
  | .Byte v => v.map .Byte
  | .Char v => v.map .Char
  | .Decimal v => v.map .Decimal
  | .Double v => v.map .Double
  | .Int16 v => v.map .Int16
  | .Int32 v => v.map .Int32
  | .Int64 v => v.map .Int64
  | .SByte v => v.map .SByte
  | .Single v => v.map .Single
  | .TimeSpan v => v.map .TimeSpan
  | .DateTime v => v.map .DateTime
  | .UInt16 v => v.map .UInt16
  | .UInt32 v => v.map .UInt32
  | .UInt64 v => v.map .UInt64
  | .Null => []
  | .String v => v.map .String

mutual

/-- A user-facing Class (stream.rs): library_name, name, and the
insertion-ordered field map (IndexMap modelled as an ordered list of
name/value pairs). -/
inductive Class
  | mk (library_name : RStr) (name : RStr) (fields : Fields)

/-- The insertion-ordered fields of a Class. -/
inductive Fields
  | nil
  | cons (field_name : RStr) (field_value : Field) (rest : Fields)

/-- A field value: primitive, primitive array, or nested class. -/
inductive Field
  | Primitive (p : Primitive)
  | PrimitiveArray (a : PrimitiveArray)
  | Class (c : Class)

end

def Class.library_name : Class → RStr
  | .mk l _ _ => l

def Class.name : Class → RStr
  | .mk _ n _ => n

def Class.fields : Class → Fields
  | .mk _ _ f => f

/-- IndexMap::insert: replace in place when the key exists, else append
at the end. -/
def Fields.insertIM : Fields → RStr → Field → Fields
  | .nil, k, v => .cons k v .nil
  | .cons k0 v0 rest, k, v =>
    if k0 = k then .cons k0 v rest
    else .cons k0 v0 (Fields.insertIM rest k v)

/-- The Stream: a single root Class. -/
structure Stream where
  root : Class

/- ===== BTreeMap models (sorted association lists) ===== -/

/-- Lexicographic byte order on Rust strings (String Ord). -/
def rstrLt : RStr → RStr → Bool
  | [], [] => false
  | [], _ :: _ => true
  | _ :: _, [] => false
  | a :: as0, b :: bs0 =>
    if a < b then true else if b < a then false else rstrLt as0 bs0

/-- BTreeMap::insert on a sorted association list: replacing the value
of an existing key, keeping the stored key. -/
def btreeInsert (lt : κ → κ → Bool) (m : List (κ × α)) (k : κ) (v : α) :
    List (κ × α) :=
  match m with
  | [] => [(k, v)]
  | (k0, v0) :: rest =>
    if lt k k0 then (k, v) :: (k0, v0) :: rest
    else if lt k0 k then (k0, v0) :: btreeInsert lt rest k v
    else (k0, v) :: rest

/-- BTreeMap lookup. -/
def btreeGet (lt : κ → κ → Bool) (m : List (κ × α)) (k : κ) : Option α :=
  match m with
  | [] => none
  | (k0, v0) :: rest =>
    if lt k k0 then btreeGet lt rest k
    else if lt k0 k then btreeGet lt rest k
    else some v0

/-- Int order for BTreeMap of i32 keys. -/
def intLt (a b : Int) : Bool := a < b

/- ===== stream.rs: the encoder ===== -/

structure StreamEncoderState where
  libraries : List (RStr × Int)
  counter : Int

/-- StreamEncoderState::new. -/
def StreamEncoderState.new : StreamEncoderState := ⟨[], 1⟩

mutual

/-- StreamEncoderState::encode_class: reserve the object id, insert the
library name with the next counter value (overwriting any previous id
for that name), walk the fields, and prepend this class's
ClassWithMembersAndTypes record to the records the walk produced. -/
def encode_class (st : StreamEncoderState) (c : Class) :
    List Record × StreamEncoderState :=
  match c with
  | .mk library_name name fields =>
    let object_id := st.counter
    let st1 : StreamEncoderState :=
      ⟨btreeInsert rstrLt st.libraries library_name (st.counter + 1),
       st.counter + 2⟩
    let out := encode_fields st1 fields
    let st2 := out.2.2.2.2.2
    let member_names := out.2.1
    let record := Record.ClassWithMembersAndTypes
      ⟨object_id, name, Int.ofNat member_names.length, member_names⟩
      ⟨out.2.2.1, out.2.2.2.1⟩
      ((btreeGet rstrLt st2.libraries library_name).getD 0)
      out.2.2.2.2.1
    (record :: out.1, ⟨st2.libraries, st2.counter + 1⟩)

/-- The field loop of encode_class.  Returns, in order: the records
produced, the member names, the member types, the additional info, the
member references, and the final state. -/
def encode_fields (st : StreamEncoderState) (fs : Fields) :
    List Record × List RStr × List BinaryType × List AdditionalInfo ×
      List Record × StreamEncoderState :=
  match fs with
  | .nil => ([], [], [], [], [], st)
  | .cons field_name field_value rest =>
    match field_value with
    | .Primitive value =>
      let tail := encode_fields st rest
      (tail.1, field_name :: tail.2.1, .Primitive_ :: tail.2.2.1,
       .Primitive value.get_type :: tail.2.2.2.1,
       .MemberPrimitiveUnTyped value :: tail.2.2.2.2.1, tail.2.2.2.2.2)
    | .PrimitiveArray value =>
      let primitive_type := value.get_type
      let array := value.toVec
      let arrayRecord := Record.ArraySinglePrimitive
        ⟨st.counter, Int.ofNat array.length⟩ primitive_type array
      let st1 : StreamEncoderState := ⟨st.libraries, st.counter + 1⟩
      let tail := encode_fields st1 rest
      (arrayRecord :: tail.1, field_name :: tail.2.1,
       .PrimitiveArray :: tail.2.2.1,
       .PrimitiveArray primitive_type :: tail.2.2.2.1,
       .MemberReference st.counter :: tail.2.2.2.2.1, tail.2.2.2.2.2)
    | .Class value =>
      let inner := encode_class st value
      let st1 := inner.2
      let info := AdditionalInfo.Class
        ⟨value.name, (btreeGet rstrLt st1.libraries value.library_name).getD 0⟩
      let st2 : StreamEncoderState := ⟨st1.libraries, st1.counter + 1⟩
      let tail := encode_fields st2 rest
      (inner.1 ++ tail.1, field_name :: tail.2.1, .Class :: tail.2.2.1,
       info :: tail.2.2.2.1,
       .MemberReference st1.counter :: tail.2.2.2.2.1, tail.2.2.2.2.2)

end

/-- Stream::encode at the record level: header, one BinaryLibrary per
entry of the final library table (in the table's iteration order),
the class walk's records, MessageEnd. -/
def Stream.encodeRecords (s : Stream) : List Record :=
  let out := encode_class StreamEncoderState.new s.root
  Record.SerializationHeader ⟨1, -1, 1, 0⟩ ::
    (out.2.libraries.map (fun kv => Record.BinaryLibrary ⟨kv.2, kv.1⟩) ++
      out.1 ++ [Record.MessageEnd])

/-- Stream::encode down to bytes (writer.unparse(records)); none is a
write-side panic. -/
def Stream.encodeBytes (s : Stream) : Option (List Nat) :=
  unparseRecordList (Stream.encodeRecords s)

/- ===== stream.rs: the decoder ===== -/

/-- A Rust panic inside the stream layer.  fuelExhausted is an embedding
artifact: decode_class recurses through the object table and is given
fuel exceeding any depth reachable on acyclic input (the source would
recurse forever on a cyclic one). -/
inductive Panic
  | unwrapNone
  | todoRecord
  | todoBinaryType (t : BinaryType)
  | keyMissing
  | indexOutOfBounds
  | unreachableReached
  | fuelExhausted
deriving DecidableEq, Repr

structure StreamDecoderState where
  objects : List (Int × Record)
  libraries : List (Int × RStr)

/-- The record fold in Stream::decode: build the object and library
tables, record the header root_id, find the root class.  A class
record observed while root_id is still None hits root_id.unwrap() and
panics; record kinds outside the handled six hit the todo! arm. -/
def decodeFold (records : List Record) (root_id : Option Int)
    (root : Option (ClassInfo × MemberTypeInfo × Int × List Record))
    (st : StreamDecoderState) :
    Except Panic
      (StreamDecoderState × Option (ClassInfo × MemberTypeInfo × Int × List Record)) :=
  match records with
  | [] => .ok (st, root)
  | r :: rest =>
    match r with
    | .SerializationHeader h => decodeFold rest (some h.root_id) root st
    | .ClassWithId c =>
      decodeFold rest root_id root
        ⟨btreeInsert intLt st.objects c.object_id (.ClassWithId c),
         st.libraries⟩
    | .BinaryLibrary l =>
      decodeFold rest root_id root
        ⟨st.objects, btreeInsert intLt st.libraries l.library_id
          l.library_name⟩
    | .MessageEnd => decodeFold rest root_id root st
    | .ClassWithMembersAndTypes ci mti lid refs =>
      match root_id with
      | none => .error .unwrapNone
      | some rid =>
        let root := if ci.object_id = rid then some (ci, mti, lid, refs)
          else root
        decodeFold rest root_id root
          ⟨btreeInsert intLt st.objects ci.object_id
            (.ClassWithMembersAndTypes ci mti lid refs), st.libraries⟩
    | .ArraySinglePrimitive ai pt ms =>
      decodeFold rest root_id root
        ⟨btreeInsert intLt st.objects ai.object_id
          (.ArraySinglePrimitive ai pt ms), st.libraries⟩
    | _ => .error .todoRecord

/-- The second loop of decode_class: insert name/value pairs in order;
a missing value (skipped by a failed if-let in the first loop) makes
field_values[i] panic. -/
def buildFields (names : List RStr) (values : List Field) :
    Nat → Nat → Fields → Except Panic Fields
  | _, 0, acc => .ok acc
  | i, remaining + 1, acc => do
    let n ←
      match names[i]? with
      | some n => Except.ok n
      | none => .error .indexOutOfBounds
    let v ←
      match values[i]? with
      | some v => Except.ok v
      | none => .error .indexOutOfBounds
    buildFields names values (i + 1) remaining (acc.insertIM n v)

mutual

/-- StreamDecoderState::decode_class: walk the declared members,
resolve references, recurse into nested classes, then build the
insertion-ordered field map and look the library name up. -/
def decode_class : Nat → StreamDecoderState → ClassInfo → MemberTypeInfo →
    Int → List Record → Except Panic Class
  | 0, _, _, _, _, _ => .error .fuelExhausted
  | fuel + 1, st, ci, mti, lid, refs => do
    let field_count := toUnsigned 64 ci.member_count
    let nv ← decodeClassLoop fuel st ci mti refs 0 field_count 0 [] []
    let fields ← buildFields nv.1 nv.2 0 field_count Fields.nil
    match btreeGet intLt st.libraries lid with
    | none => .error .unwrapNone
    | some library_name => .ok (.mk library_name ci.name fields)
termination_by structural fuel _ _ _ _ _ => fuel

/-- The member loop of decode_class (index i over 0..field_count, with
the single member_references cursor ai).  A slot whose pattern match
fails silently pushes no value, exactly as the source's if-let does.
(The fuel also ticks once per iteration, keeping the recursion
structural on it.) -/
def decodeClassLoop : Nat → StreamDecoderState → ClassInfo →
    MemberTypeInfo → List Record → Nat → Nat → Nat → List RStr →
    List Field → Except Panic (List RStr × List Field)
  | _, _, _, _, _, _, 0, _, names, values => .ok (names.reverse, values.reverse)
  | 0, _, _, _, _, _, _ + 1, _, _, _ => .error .fuelExhausted
  | fuel + 1, st, ci, mti, refs, i, remaining + 1, ai, names, values => do
    let field_name ←
      match ci.member_names[i]? with
      | some n => Except.ok n
      | none => .error .indexOutOfBounds
    let field_type ←
      match mti.member_types[i]? with
      | some t => Except.ok t
      | none => .error .indexOutOfBounds
    match field_type with
    | .Primitive_ => do
      let r ←
        match refs[ai]? with
        | some r => Except.ok r
        | none => .error .indexOutOfBounds
      let values :=
        match r with
        | .MemberPrimitiveUnTyped p => Field.Primitive p :: values
        | _ => values
      decodeClassLoop fuel st ci mti refs (i + 1) remaining (ai + 1)
        (field_name :: names) values
    | .PrimitiveArray => do
      let r ←
        match refs[ai]? with
        | some r => Except.ok r
        | none => .error .indexOutOfBounds
      let values ←
        match r with
        | .MemberReference id =>
          match btreeGet intLt st.objects id with
          | none => .error .keyMissing
          | some (.ArraySinglePrimitive _ pt ms) =>
            match PrimitiveArray.into_field ms pt with
            | some a => Except.ok (Field.PrimitiveArray a :: values)
            | none => .error .unreachableReached
          | some _ => Except.ok values
        | _ => Except.ok values
      decodeClassLoop fuel st ci mti refs (i + 1) remaining (ai + 1)
        (field_name :: names) values
    | .Class => do
      let r ←
        match refs[ai]? with
        | some r => Except.ok r
        | none => .error .indexOutOfBounds
      let values ←
        match r with
        | .MemberReference id =>
          match btreeGet intLt st.objects id with
          | none => .error .keyMissing
          | some (.ClassWithMembersAndTypes ci2 mti2 lid2 refs2) => do
            let inner ← decode_class fuel st ci2 mti2 lid2 refs2
            Except.ok (Field.Class inner :: values)
          | some _ => Except.ok values
        | _ => Except.ok values
      decodeClassLoop fuel st ci mti refs (i + 1) remaining (ai + 1)
        (field_name :: names) values
    | other => .error (.todoBinaryType other)
termination_by structural fuel _ _ _ _ _ _ _ _ _ => fuel

end

/-- fuel budget for decode_class: on acyclic input the nesting path
ticks at most member_names.length + 2 times per class record, so this
sum over the stream is ample (an embedding artifact; the source would
simply not terminate on cyclic input). -/
def decodeFuel (records : List Record) : Nat :=
  records.foldl
    (fun acc r =>
      match r with
      | .ClassWithMembersAndTypes ci _ _ _ =>
        acc + ci.member_names.length + 2
      | _ => acc + 2) 1

/-- Stream::decode after record parsing: fold the records, unwrap the
root, decode the root class. -/
def Stream.decodeRecords (records : List Record) : Except Panic Class := do
  let out ← decodeFold records none none ⟨[], []⟩
  match out.2 with
  | none => .error .unwrapNone
  | some (ci, mti, lid, refs) =>
    decode_class (decodeFuel records) out.1 ci mti lid refs

/-- The three observable outcomes of Stream::decode. -/
inductive StreamResult
  | okRoot (c : Class)
  | err (e : ParseError)
  | panicked (p : Panic)

/-- Stream::decode from bytes: parse the record stream, then link it
into the root Class; a ParseError is returned, a panic aborts. -/
def Stream.decode (input : List Nat) : StreamResult :=
  match parseRecords input with
  | .error e => .err e
  | .ok (records, _) =>
    match Stream.decodeRecords records with
    | .ok c => .okRoot c
    | .error p => .panicked p

/- ===== observers used to state the claims ===== -/

/-- is this record a ClassWithMembersAndTypes. -/
def isClassRecord : Record → Bool
  | .ClassWithMembersAndTypes _ _ _ _ => true
  | _ => false

/-- the record kinds the decode fold of the Stream layer handles (every
other kind lands on its todo! arm). -/
def streamHandled : Record → Bool
  | .SerializationHeader _ => true
  | .ClassWithId _ => true
  | .BinaryLibrary _ => true
  | .MessageEnd => true
  | .ClassWithMembersAndTypes _ _ _ _ => true
  | .ArraySinglePrimitive _ _ _ => true
  | _ => false

/-- (library_id, library_name) of the BinaryLibrary records of a list,
in order. -/
def libEntriesOf (rs : List Record) : List (Int × RStr) :=
  rs.filterMap fun r =>
    match r with
    | .BinaryLibrary l => some (l.library_id, l.library_name)
    | _ => none

/-- library names of the BinaryLibrary records of a list, in order. -/
def libNamesOf (rs : List Record) : List RStr :=
  (libEntriesOf rs).map Prod.snd

/-- object ids declared by the records of a list (the id another record
may reference). -/
def recordObjectIds (rs : List Record) : List Int :=
  rs.filterMap fun r =>
    match r with
    | .ClassWithId c => some c.object_id
    | .SystemClassWithMembers c => some c.class_info.object_id
    | .ClassWithMembers c => some c.class_info.object_id
    | .SystemClassWithMembersAndTypes ci _ _ => some ci.object_id
    | .ClassWithMembersAndTypes ci _ _ _ => some ci.object_id
    | .BinaryObjectString b => some b.object_id
    | .BinaryArray oid _ _ _ _ _ _ _ => some oid
    | .ArraySinglePrimitive ai _ _ => some ai.object_id
    | .ArraySingleObject a => some a.array_info.object_id
    | .ArraySingleString a => some a.array_info.object_id
    | _ => none

/-- ids carried by MemberReference entries in the member_references of
the class records of a list. -/
def classMemberRefIds (rs : List Record) : List Int :=
  rs.flatMap fun r =>
    match r with
    | .ClassWithMembersAndTypes _ _ _ refs =>
      refs.filterMap fun m =>
        match m with
        | .MemberReference id => some id
        | _ => none
    | _ => []

/-- no SerializationHeader occurs strictly before the first
ClassWithMembersAndTypes record (vacuously true without a class). -/
def noHeaderBeforeFirstClass : List Record → Bool
  | [] => true
  | .SerializationHeader _ :: rest => !(rest.any isClassRecord)
  | r :: rest => isClassRecord r || noHeaderBeforeFirstClass rest

/-- does some ClassWithMembersAndTypes record match the root_id in
effect where it occurs (headers update the id, as in the decode fold). -/
def someClassMatchesRoot : List Record → Option Int → Bool
  | [], _ => false
  | .SerializationHeader h :: rest, _ =>
    someClassMatchesRoot rest (some h.root_id)
  | .ClassWithMembersAndTypes ci _ _ _ :: rest, root_id =>
    root_id == some ci.object_id || someClassMatchesRoot rest root_id
  | _ :: rest, root_id => someClassMatchesRoot rest root_id

mutual

/-- library names of a class tree in insertion-event order: a class
inserts its own library name, then walks its fields in order, nested
classes inserting during their visit. -/
def Class.walkLibNames : Class → List RStr
  | .mk library_name _ fields => library_name :: Fields.walkLibNames fields

def Fields.walkLibNames : Fields → List RStr
  | .nil => []
  | .cons _ (.Class c) rest =>
    Class.walkLibNames c ++ Fields.walkLibNames rest
  | .cons _ _ rest => Fields.walkLibNames rest

end

/-- insert into a lexicographically sorted list of names, keeping it
sorted and duplicate-free. -/
def keyInsert (k : RStr) : List RStr → List RStr
  | [] => [k]
  | k0 :: rest =>
    if rstrLt k k0 then k :: k0 :: rest
    else if rstrLt k0 k then k0 :: keyInsert k rest
    else k0 :: rest

/-- the sorted deduplication of a list of names. -/
def sortedDedup (l : List RStr) : List RStr :=
  l.foldl (fun acc k => keyInsert k acc) []

/-- first-seen deduplication, with the names already seen accumulated. -/
def firstSeenGo : List RStr → List RStr → List RStr
  | [], _ => []
  | k :: rest, seen =>
    if k ∈ seen then firstSeenGo rest seen
    else k :: firstSeenGo rest (k :: seen)

/-- first-seen deduplication: each distinct name once, in order of its
first occurrence (the order the spec claims for BinaryLibrary records). -/
def firstSeenNames (l : List RStr) : List RStr := firstSeenGo l []

/- ===== concrete inputs used by the claims ===== -/

/-- the spec's E1 class: empty root "A" in library "L". -/
def classE1 : Class := .mk [76] [65] .nil

/-- the spec's E1 byte sequence. -/
def bytesE1 : List Nat :=
  [0x00, 1, 0, 0, 0, 255, 255, 255, 255, 1, 0, 0, 0, 0, 0, 0, 0,
   0x0C, 2, 0, 0, 0, 1, 0x4C,
   0x05, 1, 0, 0, 0, 1, 0x41, 0, 0, 0, 0, 2, 0, 0, 0,
   0x0B]

/-- E1 with library id 3 in both places: still accepted by decode, but
re-encoding renumbers the library to id 2. -/
def bytesB2 : List Nat :=
  [0x00, 1, 0, 0, 0, 255, 255, 255, 255, 1, 0, 0, 0, 0, 0, 0, 0,
   0x0C, 3, 0, 0, 0, 1, 0x4C,
   0x05, 1, 0, 0, 0, 1, 0x41, 0, 0, 0, 0, 3, 0, 0, 0,
   0x0B]

/-- root "A" in library "L" with one field "f" holding the nested class
"B" of the same library. -/
def classNested : Class :=
  .mk [76] [65] (.cons [102] (.Class (.mk [76] [66] .nil)) .nil)

/-- root "R" in library "B" with two class fields: "f" in library "A",
"g" in library "B" again. -/
def classS6 : Class :=
  .mk [66] [82]
    (.cons [102] (.Class (.mk [65] [88] .nil))
      (.cons [103] (.Class (.mk [66] [89] .nil)) .nil))

/-- body bytes of a ClassWithMembersAndTypes whose single member "x"
has BinaryType String: ClassInfo{1, "A", 1, ["x"]}, member_types
[String] (no additional info), library_id 2. -/
def bytesC5Body : List Nat :=
  [1, 0, 0, 0] ++ [1, 65] ++ [1, 0, 0, 0] ++ [1, 120] ++ [1] ++ [2, 0, 0, 0]

/-- a BinaryObjectString record (id 9, value "h") placed right after
the class body, where the String member's value would live. -/
def bytesC5Tail : List Nat := [6, 9, 0, 0, 0, 1, 104]

/-- a full stream whose root class has one String-typed member: header,
BinaryLibrary(2, "L"), the class of bytesC5Body, MessageEnd. -/
def bytesC8 : List Nat :=
  [0, 1, 0, 0, 0, 255, 255, 255, 255, 1, 0, 0, 0, 0, 0, 0, 0] ++
  [12, 2, 0, 0, 0, 1, 76] ++
  [5] ++ bytesC5Body ++
  [11]

/-- a parser-accepted stream with a header (root_id 5), an ObjectNull
record, and MessageEnd: it has no class record matching the root id,
yet the decode fold aborts on the ObjectNull through its todo! arm
before the root unwrap is ever reached. -/
def bytesC9 : List Nat :=
  [0, 5, 0, 0, 0, 255, 255, 255, 255, 1, 0, 0, 0, 0, 0, 0, 0, 10, 11]

/-- the spec's E2 shape: a single class "A" in library "L" with one
Int32 field "x", whose four little-endian payload bytes are the
arguments. -/
def bytesE2 (b0 b1 b2 b3 : Nat) : List Nat :=
  [0x00, 1, 0, 0, 0, 255, 255, 255, 255, 1, 0, 0, 0, 0, 0, 0, 0,
   0x0C, 2, 0, 0, 0, 1, 0x4C,
   0x05, 1, 0, 0, 0, 1, 0x41, 1, 0, 0, 0, 1, 0x78,
   0x00, 0x08, 2, 0, 0, 0,
   b0, b1, b2, b3,
   0x0B]

/-- is this record a BinaryLibrary. -/
def isLibRecord : Record → Bool
  | .BinaryLibrary _ => true
  | _ => false

/-- the strict-order Chain used to state sortedness of library names. -/
def rstrChain (l : List RStr) : Prop :=
  l.Chain' (fun a b => rstrLt a b = true)

/-- the Int32 value carried by an E2-shaped stream with the given
payload bytes. -/
def e2Value (b0 b1 b2 b3 : Nat) : Int :=
  toSigned 32 (b0 + 256 * (b1 + 256 * (b2 + 256 * b3)))

/-- the record list of an E2-shaped stream. -/
def recsE2 (v : Int) : List Record :=
  [.SerializationHeader ⟨1, -1, 1, 0⟩,
   .BinaryLibrary ⟨2, [76]⟩,
   .ClassWithMembersAndTypes ⟨1, [65], 1, [[120]]⟩
     ⟨[.Primitive_], [.Primitive .Int32]⟩ 2
     [.MemberPrimitiveUnTyped (.Int32 v)],
   .MessageEnd]

/-- the user-facing class of an E2-shaped stream. -/
def classE2 (v : Int) : Class :=
  .mk [76] [65] (.cons [120] (.Primitive (.Int32 v)) .nil)

/-- the bytes of an E2-shaped stream before the 4 payload bytes. -/
def bytesE2pre : List Nat :=
  [0, 1, 0, 0, 0, 255, 255, 255, 255, 1, 0, 0, 0, 0, 0, 0, 0,
   12, 2, 0, 0, 0, 1, 76,
   5, 1, 0, 0, 0, 1, 65, 1, 0, 0, 0, 1, 120, 0, 8, 2, 0, 0, 0]

/- ===== claim theorems ===== -/

set_option maxRecDepth 8000

@[simp] theorem Parser.bind_apply (p : Parser α) (f : α → Parser β)
    (input : List Nat) :
    (p >>= f) input =
      match p input with
      | .error e => .error e
      | .ok (a, rest) => f a rest := rfl

@[simp] theorem Parser.pure_apply (a : α) (input : List Nat) :
    (pure a : Parser α) input = .ok (a, input) := rfl

@[simp] theorem Parser.fail_apply (e : ParseError) (input : List Nat) :
    (Parser.fail e : Parser α) input = .error e := rfl


/-- C3: the claim says every length in [0, 2^28) round-trips through the
7-bit prefix.  Lengths 127 and 128 do round-trip, but the reader
accumulates each term at u8 width, so length 256 (written as the two
prefix bytes 0x80 0x02) is read back as 0: the parser returns the empty
string and leaves all 256 payload bytes unconsumed. -/
theorem C3_varint_roundtrip_fails_at_256 :
    parseString (unparseStr (List.replicate 127 65)) =
      .ok (List.replicate 127 65, []) ∧
    parseString (unparseStr (List.replicate 128 65)) =
      .ok (List.replicate 128 65, []) ∧
    parseString (unparseStr (List.replicate 256 65)) =
      .ok ([], List.replicate 256 65) :=
  ⟨rfl, rfl, rfl⟩

/-- C5: the claim says a fresh RecordType tag is read for every
non-Primitive member slot, including String slots.  In the code,
read_references iterates the additional_info list, which a String slot
does not contribute to: parsing a class whose single member has
BinaryType String reads no member value at all — member_references
comes back empty and the following bytes (here a BinaryObjectString
that should have been the member value) are left unconsumed. -/
theorem C5_string_slot_reads_no_value :
    parseRecordTyped 50 .ClassWithMembersAndTypes
        (bytesC5Body ++ bytesC5Tail) =
      .ok (.ClassWithMembersAndTypes ⟨1, [65], 1, [[120]]⟩
        ⟨[.String], []⟩ 2 [], bytesC5Tail) := rfl

/-- C1: the claim says decode(encode(S)) = S for roots with nested
Class fields.  Encoding classNested emits MemberReference 6 for the
nested class while the nested class record has object_id 3, so decoding
the encoded bytes panics on the missing object id instead of returning
the stream. -/
theorem C1_decode_of_encode_panics_on_nested_class :
    (Stream.encodeBytes ⟨classNested⟩).map Stream.decode =
      some (.panicked .keyMissing) := rfl

/-- C4: the claim says every MemberReference emitted by encode points to
a declared object_id, in particular that a nested class field's
reference carries the nested class record's object_id.  On classNested
the declared object ids are 1 and 3 but the emitted reference id is 6. -/
theorem C4_nested_class_member_reference_dangling :
    recordObjectIds (Stream.encodeRecords ⟨classNested⟩) = [1, 3] ∧
    classMemberRefIds (Stream.encodeRecords ⟨classNested⟩) = [6] ∧
    (6 : Int) ∉ [(1 : Int), 3] := ⟨rfl, rfl, by decide⟩

/-- C2 counterexample: bytesB2 is the E1 stream with library id 3; the
decoder accepts it, but re-encoding assigns the canonical id 2 again,
so encode(decode(B)) is bytesE1, not B. -/
theorem C2_reencoding_renumbers_ids :
    Stream.decode bytesB2 = .okRoot classE1 ∧
    Stream.encodeBytes ⟨classE1⟩ = some bytesE1 ∧
    bytesE1 ≠ bytesB2 := ⟨rfl, rfl, by decide⟩

/-- C6 counterexample: on classS6 (root in library "B" with nested
classes in "A" and then "B"), the emitted BinaryLibrary records are
[(4, "A"), (8, "B")] — name-sorted, with "B" carrying the id of its
second insertion — while first-seen order would be ["B", "A"]. -/
theorem C6_library_order_not_first_seen :
    libEntriesOf (Stream.encodeRecords ⟨classS6⟩) =
      [(4, [65]), (8, [66])] ∧
    firstSeenNames (Class.walkLibNames classS6) = [[66], [65]] ∧
    libNamesOf (Stream.encodeRecords ⟨classS6⟩) ≠
      firstSeenNames (Class.walkLibNames classS6) := ⟨rfl, rfl, by decide⟩

/-- C8 counterexample: on a stream whose root class declares one member
of BinaryType String, Stream::decode aborts through decode_class's
todo! panic carrying the offending type — it does not return a decode
error value to the caller. -/
theorem C8_decode_panics_on_string_member :
    Stream.decode bytesC8 = .panicked (.todoBinaryType .String) := rfl

/-- C10: decoding a Boolean maps every nonzero byte to true and the
byte 0 to false, and re-encoding true writes the single byte 1 (false
writes 0), so wire bytes 2..255 are normalized to 1 by a decode/encode
pass. -/
theorem C10_boolean_normalization (b : Nat) (h1 : 1 ≤ b) (h2 : b ≤ 255) :
    parsePrimitive .Boolean [b] = .ok (.Boolean true, []) ∧
    unparsePrimitive (.Boolean true) = some [1] ∧
    parsePrimitive .Boolean [0] = .ok (.Boolean false, []) ∧
    unparsePrimitive (.Boolean false) = some [0] := by
  refine ⟨?_, rfl, rfl, rfl⟩
  have hb : 0 < b := h1
  simp [parsePrimitive, parseU8, hb]

/-- witness for C10 at the byte 255. -/
theorem C10_boolean_normalization_witness :
    parsePrimitive .Boolean [255] = .ok (.Boolean true, []) ∧
    unparsePrimitive (.Boolean true) = some [1] ∧
    parsePrimitive .Boolean [0] = .ok (.Boolean false, []) ∧
    unparsePrimitive (.Boolean false) = some [0] :=
  C10_boolean_normalization 255 (by decide) (by decide)

/-- getLast? of a cons of two appended lists capped by a singleton. -/
theorem getLast?_cons_append_append_singleton (a e : α) (x y : List α) :
    (a :: (x ++ y ++ [e])).getLast? = some e := by
  have h : a :: (x ++ y ++ [e]) = (a :: (x ++ y)) ++ e :: [] := by simp
  rw [h, List.getLast?_append_cons]
  rfl

/-- C7: every record list emitted by Stream::encode starts with
SerializedStreamHeader root_id=1, header_id=-1, major=1, minor=0 and
ends with MessageEnd. -/
theorem C7_header_first_message_end_last (s : Stream) :
    (Stream.encodeRecords s).head? =
      some (.SerializationHeader ⟨1, -1, 1, 0⟩) ∧
    (Stream.encodeRecords s).getLast? = some .MessageEnd := by
  refine ⟨rfl, ?_⟩
  exact getLast?_cons_append_append_singleton _ _ _ _

/-- C8 amended: whenever decode_class reaches a first declared member
whose BinaryType is String, Object, ObjectArray, StringArray or
SystemClass (member count nonzero, a name present), it aborts through
the todo! arm carrying the offending type — the panic outcome — rather
than returning an error value. -/
theorem C8_amended_todo_panic_names_type (fuel : Nat)
    (st : StreamDecoderState) (ci : ClassInfo) (mti : MemberTypeInfo)
    (lid : Int) (refs : List Record) (t : BinaryType)
    (hcount : toUnsigned 64 ci.member_count ≠ 0)
    (hname : ci.member_names ≠ [])
    (htype : mti.member_types[0]? = some t)
    (hbad : t = .String ∨ t = .Object ∨ t = .ObjectArray ∨
      t = .StringArray ∨ t = .SystemClass) :
    decode_class (fuel + 2) st ci mti lid refs =
      .error (.todoBinaryType t) := by
  obtain ⟨k, hk⟩ := Nat.exists_eq_succ_of_ne_zero hcount
  obtain ⟨n, ns, hn⟩ := List.exists_cons_of_ne_nil hname
  rcases hbad with h | h | h | h | h <;> subst h <;>
    simp [decode_class, decodeClassLoop, hk, hn, htype, Bind.bind,
      Except.bind]

/-- witness for C8 amended: the concrete class record of bytesC8. -/
theorem C8_amended_todo_panic_names_type_witness :
    decode_class 2 ⟨[], []⟩ ⟨1, [65], 1, [[120]]⟩ ⟨[.String], []⟩ 2 [] =
      .error (.todoBinaryType .String) :=
  C8_amended_todo_panic_names_type 0 ⟨[], []⟩ ⟨1, [65], 1, [[120]]⟩
    ⟨[.String], []⟩ 2 [] .String (by decide) (by decide) rfl (Or.inl rfl)

/-- no class record means no class can match any root id. -/
theorem someClassMatchesRoot_of_no_class (rs : List Record)
    (h : rs.any isClassRecord = false) (root_id : Option Int) :
    someClassMatchesRoot rs root_id = false := by
  induction rs generalizing root_id with
  | nil => rfl
  | cons r rest ih =>
    simp only [List.any_cons, Bool.or_eq_false_iff] at h
    cases r <;> simp only [someClassMatchesRoot] <;>
      first
      | exact ih h.2 _
      | (exact absurd h.1 (by simp [isClassRecord]))

/-- if every record is stream-handled, no header precedes the first
class record, and a class record exists, the decode fold hits
root_id.unwrap() on None. -/
theorem decodeFold_no_header (rs : List Record)
    (hk : ∀ r ∈ rs, streamHandled r = true)
    (hA : noHeaderBeforeFirstClass rs = true)
    (hclass : rs.any isClassRecord = true)
    (root : Option (ClassInfo × MemberTypeInfo × Int × List Record))
    (st : StreamDecoderState) :
    decodeFold rs none root st = .error .unwrapNone := by
  induction rs generalizing root st with
  | nil => cases hclass
  | cons r rest ih =>
    have hkr := hk r (List.mem_cons_self r rest)
    have hkrest : ∀ x ∈ rest, streamHandled x = true := fun x hx =>
      hk x (List.mem_cons_of_mem r hx)
    cases r with
    | SerializationHeader h =>
      exfalso
      simp only [noHeaderBeforeFirstClass, Bool.not_eq_eq_eq_not,
        Bool.not_true] at hA
      simp only [List.any_cons, isClassRecord, Bool.false_or, hA] at hclass
      exact Bool.false_ne_true hclass
    | ClassWithMembersAndTypes ci mti lid refs => rfl
    | ClassWithId c =>
      refine ih hkrest ?_ ?_ root _
      · simpa [noHeaderBeforeFirstClass, isClassRecord] using hA
      · simpa [List.any_cons, isClassRecord] using hclass
    | BinaryLibrary l =>
      refine ih hkrest ?_ ?_ root _
      · simpa [noHeaderBeforeFirstClass, isClassRecord] using hA
      · simpa [List.any_cons, isClassRecord] using hclass
    | MessageEnd =>
      refine ih hkrest ?_ ?_ root _
      · simpa [noHeaderBeforeFirstClass, isClassRecord] using hA
      · simpa [List.any_cons, isClassRecord] using hclass
    | ArraySinglePrimitive ai pt ms =>
      refine ih hkrest ?_ ?_ root _
      · simpa [noHeaderBeforeFirstClass, isClassRecord] using hA
      · simpa [List.any_cons, isClassRecord] using hclass
    | _ => simp [streamHandled] at hkr

/-- if every record is stream-handled and no class record matches the
root id in effect where it occurs, the decode fold either panics on an
unset root id or completes without finding a root. -/
theorem decodeFold_no_match (rs : List Record)
    (hk : ∀ r ∈ rs, streamHandled r = true) (root_id : Option Int)
    (hB : someClassMatchesRoot rs root_id = false)
    (st : StreamDecoderState) :
    decodeFold rs root_id none st = .error .unwrapNone ∨
      ∃ st2, decodeFold rs root_id none st = .ok (st2, none) := by
  induction rs generalizing root_id st with
  | nil => exact Or.inr ⟨st, rfl⟩
  | cons r rest ih =>
    have hkr := hk r (List.mem_cons_self r rest)
    have hkrest : ∀ x ∈ rest, streamHandled x = true := fun x hx =>
      hk x (List.mem_cons_of_mem r hx)
    cases r with
    | SerializationHeader h =>
      simp only [someClassMatchesRoot] at hB
      exact ih hkrest _ hB _
    | ClassWithMembersAndTypes ci mti lid refs =>
      simp only [someClassMatchesRoot, Bool.or_eq_false_iff] at hB
      cases root_id with
      | none => exact Or.inl rfl
      | some rid =>
        have hne : ¬ ci.object_id = rid := by
          intro hEq
          subst hEq
          simp at hB
        simp only [decodeFold, hne, if_false]
        exact ih hkrest _ hB.2 _
    | ClassWithId c => exact ih hkrest _ hB _
    | BinaryLibrary l => exact ih hkrest _ hB _
    | MessageEnd => exact ih hkrest _ hB _
    | ArraySinglePrimitive ai pt ms => exact ih hkrest _ hB _
    | _ => simp [streamHandled] at hkr

/-- C9 counterexample: the claim quantifies over every record list the
record-level parser accepts, but on bytesC9 — accepted by the parser,
with no ClassWithMembersAndTypes matching the header's root_id — the
decoder panics through the decode fold's todo! arm on the ObjectNull
record, which is not the claimed unwrap-on-None panic. -/
theorem C9_panics_via_todo_on_unhandled_kind :
    Stream.decode bytesC9 = .panicked .todoRecord ∧
    Panic.todoRecord ≠ Panic.unwrapNone := ⟨rfl, by decide⟩

/-- C9 amended: restricted to record lists drawn from the record kinds
the stream decode fold handles (SerializationHeader, ClassWithId,
BinaryLibrary, MessageEnd, ClassWithMembersAndTypes,
ArraySinglePrimitive): whenever no SerializationHeader precedes the
first class record or no class record matches the root id in effect,
the stream decoder panics on an unwrap of None instead of returning a
ParseError.  (Accepted lists holding other record kinds also panic
rather than return an error, but through the fold's todo! arm, as the
counterexample shows.) -/
theorem C9_missing_header_or_root_panics (rs : List Record)
    (hk : ∀ r ∈ rs, streamHandled r = true)
    (hdef : noHeaderBeforeFirstClass rs = true ∨
      someClassMatchesRoot rs none = false) :
    Stream.decodeRecords rs = .error .unwrapNone := by
  have main : decodeFold rs none none ⟨[], []⟩ = .error .unwrapNone ∨
      ∃ st2, decodeFold rs none none ⟨[], []⟩ = .ok (st2, none) := by
    rcases hdef with hA | hB
    · by_cases hclass : rs.any isClassRecord = true
      · exact Or.inl (decodeFold_no_header rs hk hA hclass none ⟨[], []⟩)
      · have hB : someClassMatchesRoot rs none = false :=
          someClassMatchesRoot_of_no_class rs
            (Bool.eq_false_iff.mpr hclass) none
        exact decodeFold_no_match rs hk none hB ⟨[], []⟩
    · exact decodeFold_no_match rs hk none hB ⟨[], []⟩
  rcases main with h | ⟨st2, h⟩ <;>
    simp [Stream.decodeRecords, h, Bind.bind, Except.bind]

/-- witness for C9: the record list holding only MessageEnd. -/
theorem C9_missing_header_or_root_panics_witness :
    Stream.decodeRecords [.MessageEnd] = .error .unwrapNone :=
  C9_missing_header_or_root_panics [.MessageEnd]
    (by intro r hr; simp at hr; subst hr; rfl) (Or.inl rfl)

/-- inserting into a BTreeMap inserts the key into the key list. -/
theorem btreeInsert_keys (m : List (RStr × Int)) (k : RStr) (v : Int) :
    (btreeInsert rstrLt m k v).map Prod.fst =
      keyInsert k (m.map Prod.fst) := by
  induction m with
  | nil => rfl
  | cons kv rest ih =>
    obtain ⟨k0, v0⟩ := kv
    simp only [btreeInsert, keyInsert, List.map_cons]
    by_cases h1 : rstrLt k k0
    · simp [h1]
    · by_cases h2 : rstrLt k0 k
      · simp [h1, h2, ih]
      · simp [h1, h2]

mutual

/-- after encode_class, the library table's keys are the fold of
keyInsert over the class tree's walk names, from the incoming keys. -/
theorem encode_class_libKeys : ∀ (st : StreamEncoderState) (c : Class),
    ((encode_class st c).2.libraries).map Prod.fst =
      (Class.walkLibNames c).foldl (fun acc k => keyInsert k acc)
        (st.libraries.map Prod.fst)
  | st, .mk l n fs => by
    simp only [encode_class, Class.walkLibNames, List.foldl_cons]
    rw [encode_fields_libKeys]
    rw [btreeInsert_keys]

/-- the same for the field walk. -/
theorem encode_fields_libKeys : ∀ (st : StreamEncoderState) (fs : Fields),
    ((encode_fields st fs).2.2.2.2.2.libraries).map Prod.fst =
      (Fields.walkLibNames fs).foldl (fun acc k => keyInsert k acc)
        (st.libraries.map Prod.fst)
  | _, .nil => rfl
  | st, .cons name (.Primitive p) rest => by
    simp only [encode_fields, Fields.walkLibNames]
    exact encode_fields_libKeys st rest
  | st, .cons name (.PrimitiveArray a) rest => by
    simp only [encode_fields, Fields.walkLibNames]
    exact encode_fields_libKeys _ rest
  | st, .cons name (.Class cc) rest => by
    simp only [encode_fields, Fields.walkLibNames, List.foldl_append]
    rw [encode_fields_libKeys, encode_class_libKeys]

end

mutual

/-- the class walk of the encoder emits no BinaryLibrary record (those
come only from the table dump in Stream::encode). -/
theorem encode_class_no_library : ∀ (st : StreamEncoderState) (c : Class),
    ∀ r ∈ (encode_class st c).1, isLibRecord r = false
  | st, .mk l n fs => by
    simp only [encode_class, List.mem_cons]
    intro r hr
    rcases hr with h | h
    · subst h; rfl
    · exact encode_fields_no_library _ fs r h

/-- the same for the field walk. -/
theorem encode_fields_no_library : ∀ (st : StreamEncoderState) (fs : Fields),
    ∀ r ∈ (encode_fields st fs).1, isLibRecord r = false
  | _, .nil => by intro r hr; cases hr
  | st, .cons name (.Primitive p) rest => by
    simp only [encode_fields]
    exact encode_fields_no_library st rest
  | st, .cons name (.PrimitiveArray a) rest => by
    simp only [encode_fields, List.mem_cons]
    intro r hr
    rcases hr with h | h
    · subst h; rfl
    · exact encode_fields_no_library _ rest r h
  | st, .cons name (.Class cc) rest => by
    simp only [encode_fields, List.mem_append]
    intro r hr
    rcases hr with h | h
    · exact encode_class_no_library _ cc r h
    · exact encode_fields_no_library _ rest r h

end

/-- projecting the names back out of the dumped library records gives
the table's key list. -/
theorem map_snd_filterMap_swap (libs : List (RStr × Int)) :
    List.map Prod.snd (List.filterMap (fun x => some (x.2, x.1)) libs) =
      List.map Prod.fst libs := by
  induction libs with
  | nil => rfl
  | cons a r ih => simp [ih]

/-- the library names the encoder emits are exactly the keys of the
final library table. -/
theorem libNamesOf_encodeRecords (s : Stream) :
    libNamesOf (Stream.encodeRecords s) =
      ((encode_class StreamEncoderState.new s.root).2.libraries).map
        Prod.fst := by
  have hwalk : ∀ r ∈ (encode_class StreamEncoderState.new s.root).1,
      (fun rc =>
        match rc with
        | Record.BinaryLibrary l => some (l.library_id, l.library_name)
        | _ => none) r = none := by
    intro r hr
    have h := encode_class_no_library StreamEncoderState.new s.root r hr
    cases r <;> simp_all [isLibRecord]
  simp only [Stream.encodeRecords, libNamesOf, libEntriesOf,
    List.filterMap_cons, List.filterMap_append, List.filterMap_map]
  rw [List.filterMap_eq_nil_iff.mpr hwalk]
  simp only [Function.comp_def, List.append_nil, List.filterMap_nil]
  exact map_snd_filterMap_swap _

/-- the head of keyInsert is either the inserted key or the old head. -/
theorem keyInsert_head (k : RStr) (l : List RStr) :
    (keyInsert k l).head? = some k ∨ (keyInsert k l).head? = l.head? := by
  cases l with
  | nil => left; rfl
  | cons r1 rs =>
    simp only [keyInsert]
    by_cases h3 : rstrLt k r1
    · rw [if_pos h3]; left; rfl
    · rw [if_neg h3]
      by_cases h4 : rstrLt r1 k
      · rw [if_pos h4]; right; rfl
      · rw [if_neg h4]; right; rfl

/-- keyInsert keeps a sorted duplicate-free name list sorted. -/
theorem keyInsert_chain (k : RStr) (l : List RStr)
    (hl : rstrChain l) : rstrChain (keyInsert k l) := by
  induction l with
  | nil => simp [rstrChain, keyInsert]
  | cons k0 rest ih =>
    simp only [keyInsert]
    by_cases h1 : rstrLt k k0
    · rw [if_pos h1]
      exact List.Chain'.cons h1 hl
    · rw [if_neg h1]
      by_cases h2 : rstrLt k0 k
      · rw [if_pos h2]
        have htail : rstrChain rest := hl.tail
        refine List.chain'_cons'.mpr ⟨?_, ih htail⟩
        intro y hy
        rcases keyInsert_head k rest with hh | hh
        · rw [hh] at hy
          simp only [Option.mem_def, Option.some_inj] at hy
          subst hy
          exact h2
        · rw [hh] at hy
          exact (List.chain'_cons'.mp hl).1 y hy
      · rw [if_neg h2]
        exact List.chain'_cons'.mpr
          ⟨fun y hy => (List.chain'_cons'.mp hl).1 y hy, hl.tail⟩

/-- the keyInsert fold of any name list over a sorted base is sorted. -/
theorem foldl_keyInsert_chain (l : List RStr) (acc : List RStr)
    (hacc : rstrChain acc) :
    rstrChain (l.foldl (fun acc k => keyInsert k acc) acc) := by
  induction l generalizing acc with
  | nil => exact hacc
  | cons k rest ih => exact ih _ (keyInsert_chain k acc hacc)

/-- C6 amended: the encoder emits one BinaryLibrary record per distinct
library_name of the class tree — the emitted name list is the sorted
deduplication of the walk's names — and the emitted names are strictly
ascending in lexicographic byte order (hence each name appears exactly
once, in sorted rather than first-seen order). -/
theorem C6_amended_libraries_sorted_dedup (s : Stream) :
    libNamesOf (Stream.encodeRecords s) =
      sortedDedup (Class.walkLibNames s.root) ∧
    rstrChain (libNamesOf (Stream.encodeRecords s)) := by
  have h1 := libNamesOf_encodeRecords s
  have h2 := encode_class_libKeys StreamEncoderState.new s.root
  constructor
  · rw [h1, h2]
    rfl
  · rw [h1, h2]
    exact foldl_keyInsert_chain _ _
      (by simp [rstrChain, StreamEncoderState.new])

/-- reading an in-range u32 as i32 and casting back is the identity. -/
theorem toUnsigned_toSigned_32 (u : Nat) (h : u < 2 ^ 32) :
    toUnsigned 32 (toSigned 32 u) = u := by
  unfold toSigned toUnsigned
  split <;> omega

/-- C2 amended: encode(decode(B)) == B holds for byte streams with the
encoder's canonical id assignment; here for every stream of the E2
shape (single class "A" in library "L" with one Int32 field "x"),
whatever its four payload bytes. -/
theorem C2_amended_canonical_int32_stream_roundtrip (b0 b1 b2 b3 : Nat)
    (h0 : b0 < 256) (h1 : b1 < 256) (h2 : b2 < 256) (h3 : b3 < 256) :
    (match Stream.decode (bytesE2 b0 b1 b2 b3) with
     | .okRoot c => Stream.encodeBytes ⟨c⟩
     | _ => none) = some (bytesE2 b0 b1 b2 b3) := by
  have hparse : parseRecords (bytesE2 b0 b1 b2 b3) =
      .ok (recsE2 (e2Value b0 b1 b2 b3), []) := rfl
  have hdec : ∀ v : Int, Stream.decodeRecords (recsE2 v) =
      .ok (classE2 v) := fun v => rfl
  have hencR : ∀ v : Int, Stream.encodeRecords ⟨classE2 v⟩ = recsE2 v :=
    fun v => rfl
  have hunp : ∀ v : Int, unparseRecordList (recsE2 v) =
      some (bytesE2pre ++ leBytes 4 (toUnsigned 32 v) ++ [11]) :=
    fun v => rfl
  have henc : ∀ v : Int, Stream.encodeBytes ⟨classE2 v⟩ =
      some (bytesE2pre ++ leBytes 4 (toUnsigned 32 v) ++ [11]) := by
    intro v
    rw [Stream.encodeBytes, hencR v, hunp v]
  have hval : toUnsigned 32 (e2Value b0 b1 b2 b3) =
      b0 + 256 * (b1 + 256 * (b2 + 256 * b3)) := by
    unfold e2Value
    exact toUnsigned_toSigned_32 _ (by omega)
  have hbytes : leBytes 4 (b0 + 256 * (b1 + 256 * (b2 + 256 * b3))) =
      [b0, b1, b2, b3] := by
    simp only [leBytes, List.cons.injEq, and_true]
    omega
  simp only [Stream.decode, hparse, hdec (e2Value b0 b1 b2 b3),
    henc (e2Value b0 b1 b2 b3), hval, hbytes]
  rfl

/-- witness for C2 amended at the payload bytes of E2 with x = 42. -/
theorem C2_amended_canonical_int32_stream_roundtrip_witness :
    (match Stream.decode (bytesE2 42 0 0 0) with
     | .okRoot c => Stream.encodeBytes ⟨c⟩
     | _ => none) = some (bytesE2 42 0 0 0) :=
  C2_amended_canonical_int32_stream_roundtrip 42 0 0 0 (by decide)
    (by decide) (by decide) (by decide)

end MsNrbf
